import Mathlib

/-!
Shallow embedding of the AngEcomBackend request handlers
(`src/controllers/productsController.js`, `src/controllers/authController.js`,
route wiring in `src/unnamed/part_001`, product schema in `src/unnamed/part_000`).

Modelling conventions:
 - JavaScript numbers are modelled as exact rationals (ℚ); integer-valued
   fields (counters, timestamps, ids) as Nat/Int.
 - The MongoDB document store is a list of records; `find()` returns the
   list, `findOne`/`findById` return the first match, `findByIdAndUpdate`
   / `save` replace the matching record in place.
 - A malformed ObjectId (not a 24-character hex string) makes
   `findById`-style queries reject with a CastError; the controllers catch
   it in their try/catch blocks and answer 500.
 - JavaScript truthiness on strings: falsy iff absent or empty; on the
   rating number: falsy iff 0.
 - Responses are modelled as a sum of the JSON bodies the handlers send.
-/

namespace ECom

/-- Embedding of JavaScript String.prototype.toLowerCase (per-character lowering). -/
def sLower (s : String) : String := ⟨s.data.map Char.toLower⟩

/-- Embedding of JavaScript String.prototype.trim: drop whitespace at both ends. -/
def sTrim (s : String) : String :=
  ⟨((s.data.dropWhile Char.isWhitespace).reverse.dropWhile Char.isWhitespace).reverse⟩

/-- Truthiness of an optional string request field: falsy when absent or empty. -/
def optFalsy : Option String → Bool
  | none => true
  | some s => s == ""

/-- Hexadecimal digit test, used by the ObjectId well-formedness check. -/
def isHexDigitB (c : Char) : Bool :=
  c.isDigit || (decide ('a' ≤ c) && decide (c ≤ 'f')) || (decide ('A' ≤ c) && decide (c ≤ 'F'))

/-- A well-formed MongoDB ObjectId string: exactly 24 hex characters.
Queries on any other string reject with a CastError. -/
def isValidObjectId (s : String) : Bool :=
  s.data.length == 24 && s.data.all isHexDigitB

/-- Database-level failure: the cast error thrown on a malformed ObjectId. -/
inductive DbErr where
  | castError
deriving Repr, DecidableEq

/-- Product document, after `productSchema` in the model file
(name, description, price, image, category, brand, rating, ratingCount,
stock, isActive, plus the `timestamps` createdAt). -/
structure Product where
  id : String
  name : String
  description : String
  price : ℚ
  image : String
  category : String
  brand : String
  rating : ℚ
  ratingCount : Nat
  stock : Int
  isActive : Bool
  createdAt : Nat
deriving Repr, DecidableEq

/-- Embedding of `Product.findById(id)`: CastError on a malformed id,
otherwise the first document whose `_id` matches, if any. -/
def Product.findById (store : List Product) (id : String) : Except DbErr (Option Product) :=
  if isValidObjectId id then .ok (store.find? (fun p => p.id == id)) else .error .castError

/-- Persisting a document (`product.save()` / `findByIdAndUpdate`): replace
the record(s) carrying its id. -/
def saveById (store : List Product) (p : Product) : List Product :=
  store.map (fun q => if q.id == p.id then p else q)

/-- Insertion step for the descending-by-createdAt sort (`sort({createdAt: -1})`). -/
def insertDesc (p : Product) : List Product → List Product
  | [] => [p]
  | q :: t => if p.createdAt ≤ q.createdAt then q :: insertDesc p t else p :: q :: t

/-- Stable descending sort by creation time, modelling `sort({createdAt: -1})`. -/
def sortByCreatedAtDesc : List Product → List Product
  | [] => []
  | p :: t => insertDesc p (sortByCreatedAtDesc t)

/-- JSON bodies the product handlers answer with: a single document (with its
HTTP status), a document list, or an error status plus message. -/
inductive ProductResponse where
  | okP (status : Nat) (p : Product)
  | okList (ps : List Product)
  | err (status : Nat) (message : String)
deriving Repr, DecidableEq

/-- Request body of createProduct/updateProduct; absent fields are `none`. -/
structure ProductBody where
  name : Option String
  description : Option String
  price : Option ℚ
  image : Option String
  category : Option String
  stock : Option Int
  brand : Option String
  rating : Option ℚ
deriving Repr, DecidableEq

/-- Truthiness of the optional price field (`!price`): absent or zero. -/
def priceFalsy : Option ℚ → Bool
  | none => true
  | some x => x == 0

/-- Embedding of getProductById: 404 when absent, and the CastError a
malformed id raises is caught by the handler's try/catch, answering 500. -/
def getProductById (store : List Product) (id : String) : ProductResponse :=
  match Product.findById store id with
  | .error _ => .err 500 "Error fetching product"
  | .ok none => .err 404 "Product not found"
  | .ok (some p) => .okP 200 p

/-- Document built by createProduct once validation passed: body fields,
brand defaulted when falsy, rating taken from the body when present else 0,
schema defaults ratingCount = 0 and isActive = true, timestamped now. -/
def mkProduct (newId : String) (now : Nat) (b : ProductBody) : Product :=
  { id := newId
    name := b.name.getD ""
    description := b.description.getD ""
    price := b.price.getD 0
    image := b.image.getD ""
    category := b.category.getD ""
    brand := if optFalsy b.brand then "MadeInIndia" else b.brand.getD ""
    rating := b.rating.getD 0
    ratingCount := 0
    stock := b.stock.getD 0
    isActive := true
    createdAt := now }

/-- Embedding of createProduct: required-field check (price falsy when 0),
price > 0 and stock ≥ 0 checks, then insert. Mongoose schema validators
(category enum, image pattern, length caps) are not modelled; they only
reject, never alter a stored document. -/
def createProduct (store : List Product) (newId : String) (now : Nat) (b : ProductBody) :
    List Product × ProductResponse :=
  if optFalsy b.name || optFalsy b.description || priceFalsy b.price ||
      optFalsy b.image || optFalsy b.category || b.stock == none then
    (store, .err 400 "All fields are required: name, description, price, image, category, stock")
  else if (b.price.getD 0) ≤ 0 then
    (store, .err 400 "Price must be greater than 0")
  else if (b.stock.getD 0) < 0 then
    (store, .err 400 "Stock cannot be negative")
  else
    let p := mkProduct newId now b
    (store ++ [p], .okP 201 p)

/-- Field set of updateProduct's `updateData`, one definition per field:
string fields are set only when truthy, price/stock/rating whenever present
(not undefined). -/
def setName (b : ProductBody) (p : Product) : Product :=
  if optFalsy b.name then p else { p with name := b.name.getD "" }

/-- Conditional description update of updateProduct. -/
def setDescription (b : ProductBody) (p : Product) : Product :=
  if optFalsy b.description then p else { p with description := b.description.getD "" }

/-- Conditional price update of updateProduct (present means not undefined). -/
def setPrice (b : ProductBody) (p : Product) : Product :=
  match b.price with | some x => { p with price := x } | none => p

/-- Conditional image update of updateProduct. -/
def setImage (b : ProductBody) (p : Product) : Product :=
  if optFalsy b.image then p else { p with image := b.image.getD "" }

/-- Conditional category update of updateProduct. -/
def setCategory (b : ProductBody) (p : Product) : Product :=
  if optFalsy b.category then p else { p with category := b.category.getD "" }

/-- Conditional stock update of updateProduct. -/
def setStock (b : ProductBody) (p : Product) : Product :=
  match b.stock with | some x => { p with stock := x } | none => p

/-- Conditional brand update of updateProduct. -/
def setBrand (b : ProductBody) (p : Product) : Product :=
  if optFalsy b.brand then p else { p with brand := b.brand.getD "" }

/-- Conditional rating update of updateProduct. -/
def setRating (b : ProductBody) (p : Product) : Product :=
  match b.rating with | some x => { p with rating := x } | none => p

/-- Partial update applied by updateProduct's `updateData`, field updates in
the source's order. -/
def applyUpdate (p : Product) (b : ProductBody) : Product :=
  setRating b (setBrand b (setStock b (setCategory b (setImage b (setPrice b
    (setDescription b (setName b p)))))))

/-- Embedding of updateProduct: price/stock validation when supplied, then
findByIdAndUpdate (CastError on a malformed id is caught, answering 500),
404 when absent, else the partially updated document is stored and returned. -/
def updateProduct (store : List Product) (id : String) (b : ProductBody) :
    List Product × ProductResponse :=
  if (match b.price with | some x => decide (x ≤ 0) | none => false) then
    (store, .err 400 "Price must be greater than 0")
  else if (match b.stock with | some x => decide (x < 0) | none => false) then
    (store, .err 400 "Stock cannot be negative")
  else
    match Product.findById store id with
    | .error _ => (store, .err 500 "Error updating product")
    | .ok none => (store, .err 404 "Product not found")
    | .ok (some p) =>
        let p2 := applyUpdate p b
        (saveById store p2, .okP 200 p2)

/-- Rating validation of updateProductRating: the guard
`!rating || rating < 0 || rating > 5` rejects 0 (falsy) and anything
outside [0,5]. -/
def ratingInvalid (v : ℚ) : Bool :=
  v == 0 || decide (v < 0) || decide (v > 5)

/-- One accepted rating submission on a document, exactly the source's
read-modify-write: with a truthy ratingCount, totalRating is the old
rating times the old count, the count is incremented and the rating becomes
(totalRating + rating) / newCount; on a zero count the rating is set to the
submission and the count to 1. -/
def ratingStep (p : Product) (v : ℚ) : Product :=
  if p.ratingCount ≠ 0 then
    let totalRating := p.rating * (p.ratingCount : ℚ)
    let newCount := p.ratingCount + 1
    { p with ratingCount := newCount, rating := (totalRating + v) / (newCount : ℚ) }
  else
    { p with rating := v, ratingCount := 1 }

/-- Embedding of updateProductRating: validation first, then lookup (the
CastError of a malformed id is caught, answering 500), 404 when absent,
else the rating step is applied and saved. -/
def updateProductRating (store : List Product) (id : String) (v : ℚ) :
    List Product × ProductResponse :=
  if ratingInvalid v then
    (store, .err 400 "Invalid rating value. Must be between 0 and 5.")
  else
    match Product.findById store id with
    | .error _ => (store, .err 500 "Error updating product rating")
    | .ok none => (store, .err 404 "Product not found")
    | .ok (some p) =>
        let p2 := ratingStep p v
        (saveById store p2, .okP 200 p2)

/-- Embedding of getProductsByCategory in the controller: a plain
`find({category})` — no isActive filter — sorted descending by createdAt. -/
def getProductsByCategory (store : List Product) (cat : String) : ProductResponse :=
  .okList (sortByCreatedAtDesc (store.filter (fun p => p.category == cat)))

/-- Embedding of the model file's static `findByCategory`, which the route
never reaches: it additionally filters `isActive: true`. -/
def Product.findByCategory (store : List Product) (cat : String) : List Product :=
  sortByCreatedAtDesc (store.filter (fun p => p.category == cat && p.isActive))

/-- Token of the regular-expression fragment the search queries are run
through: a literal character or the dot wildcard. This models MongoDB's
$regex operator for patterns built from literals and the dot
metacharacter; other metacharacters are outside the modelled fragment. -/
inductive RTok where
  | lit (c : Char)
  | dot
deriving Repr, DecidableEq

/-- Pattern read off a query string: a dot character becomes the wildcard,
every other character a literal. -/
def parsePattern (q : String) : List RTok :=
  q.data.map (fun c => if c == '.' then RTok.dot else RTok.lit c)

/-- Single-character match under the case-insensitive `i` option: a literal
compares lowercased, the dot matches any character. -/
def charMatches : RTok → Char → Bool
  | .lit a, c => a.toLower == c.toLower
  | .dot, _ => true

/-- Anchored match: the pattern consumes a prefix of the text. -/
def matchHere : List RTok → List Char → Bool
  | [], _ => true
  | _ :: _, [] => false
  | t :: p, c :: s => charMatches t c && matchHere p s

/-- Unanchored regex search: the pattern matches starting at some position. -/
def regexFind (p : List RTok) : List Char → Bool
  | [] => matchHere p []
  | c :: s => matchHere p (c :: s) || regexFind p s

/-- One field matching `{$regex: q, $options: 'i'}`. -/
def fieldMatches (q : String) (s : String) : Bool :=
  regexFind (parsePattern q) s.data

/-- The $or of the three field regexes used by searchProducts. -/
def searchMatches (q : String) (p : Product) : Bool :=
  fieldMatches q p.name || fieldMatches q p.description || fieldMatches q p.category

/-- Embedding of searchProducts in the controller: 400 when the query is
falsy, else the documents whose name, description or category matches the
query regex case-insensitively, sorted descending by createdAt. -/
def searchProducts (store : List Product) (q : Option String) : ProductResponse :=
  if optFalsy q then .err 400 "Search query is required"
  else .okList (sortByCreatedAtDesc (store.filter (searchMatches (q.getD ""))))

/-- Boolean prefix test on character lists (used to state substring facts). -/
def isPrefixB : List Char → List Char → Bool
  | [], _ => true
  | _ :: _, [] => false
  | a :: l, b :: s => a == b && isPrefixB l s

/-- Boolean contiguous-substring test on character lists. -/
def isInfixB (l : List Char) : List Char → Bool
  | [] => l.isEmpty
  | c :: s => isPrefixB l (c :: s) || isInfixB l s

/-- Case-insensitive substring containment of q in s, the property the spec
states for search results. -/
def containsCI (s q : String) : Bool :=
  isInfixB (q.data.map Char.toLower) (s.data.map Char.toLower)

/-- Characters with a special meaning in the regex dialect; queries free of
them behave as literal substring searches. -/
def regexMetaChars : List Char :=
  ['.', '*', '+', '?', '^', '$', '(', ')', '[', ']', '\x7b', '\x7d', '|', '\\']

/-- Query strings containing no regex metacharacter. -/
def noMetaChars (q : String) : Bool :=
  q.data.all (fun c => !(regexMetaChars.contains c))

/-- Catalog-mutating operations considered by the rating invariant:
create, partial update, and a rating submission. -/
inductive Op where
  | create (newId : String) (now : Nat) (b : ProductBody)
  | update (id : String) (b : ProductBody)
  | rate (id : String) (v : ℚ)
deriving Repr, DecidableEq

/-- Store transition of one operation (the handler's resulting store). -/
def applyOp (store : List Product) : Op → List Product
  | .create newId now b => (createProduct store newId now b).1
  | .update id b => (updateProduct store id b).1
  | .rate id v => (updateProductRating store id v).1

/-- Store after a sequence of operations. -/
def applyOps (store : List Product) : List Op → List Product
  | [] => store
  | op :: rest => applyOps (applyOp store op) rest

/-- Whether a rating submission was accepted (the handler answered with the
updated document rather than an error). -/
def isAccepted : ProductResponse → Bool
  | .okP _ _ => true
  | _ => false

/-- Rating values contributed to product `pid` by one operation: a rate call
on `pid` that the handler accepted contributes its value. -/
def opSubs (store : List Product) (op : Op) (pid : String) : List ℚ :=
  match op with
  | .rate id v => if id == pid && isAccepted (updateProductRating store id v).2 then [v] else []
  | _ => []

/-- Chronological list of accepted rating submissions for product `pid`
along an operation sequence. -/
def acceptedSubs (store : List Product) : List Op → String → List ℚ
  | [], _ => []
  | op :: rest, pid => opSubs store op pid ++ acceptedSubs (applyOp store op) rest pid

/-- Operations whose request bodies carry no rating field: create and update
bodies with `rating` absent; rating submissions are unrestricted. -/
def opNoRatingBody : Op → Bool
  | .create _ _ b => b.rating == none
  | .update _ b => b.rating == none
  | .rate _ _ => true

/-- The spec's §3 rating invariant for one document against the list of its
accepted submissions: the count equals the number of submissions, the
rating times the count equals their sum, and a document with no submissions
carries the default rating 0. -/
def ratingMeanOf (p : Product) (subs : List ℚ) : Prop :=
  p.ratingCount = subs.length ∧
  p.rating * (p.ratingCount : ℚ) = subs.sum ∧
  (subs = [] → p.rating = 0)

/-- Iterated accepted rating submissions starting from a given store
(folds updateProductRating, keeping the evolving store). -/
def rateMany (store : List Product) (id : String) (vs : List ℚ) : List Product :=
  vs.foldl (fun s v => (updateProductRating s id v).1) store

/-- User document, after the spec's §3 data model (user.model.js itself is
not among the sources): id, name, email, stored password hash, role,
createdAt. Modelled from the spec: persistence is a plain insert into the
user collection; email uniqueness is enforced at write time by the
controllers' findOne checks. -/
structure User where
  id : Nat
  name : String
  email : String
  password : String
  role : String
  createdAt : Nat
deriving Repr, DecidableEq

/-- Request body of registerUser; absent fields are `none`. -/
structure RegisterReq where
  name : Option String
  email : Option String
  password : Option String
  role : Option String
deriving Repr, DecidableEq

/-- Role stored at registration: `role || 'user'`, so a falsy role defaults
to user. -/
def optRole : Option String → String
  | none => "user"
  | some r => if r == "" then "user" else r

/-- JSON bodies the auth handlers answer with: the password-free user data
of a successful register / login / profile update, or an error status and
message. -/
inductive AuthResponse where
  | created (id : Nat) (name : String) (email : String) (role : String)
  | loggedIn (id : Nat) (name : String) (email : String) (role : String)
  | profileOk (id : Nat) (name : String) (email : String) (role : String)
  | err (status : Nat) (message : String)
deriving Repr, DecidableEq

/-- Embedding of `User.findOne({email: e})`: first stored user with that
exact email string. -/
def User.findByEmail (store : List User) (e : String) : Option User :=
  store.find? (fun u => u.email == e)

/-- Embedding of registerUser. The password hash (bcrypt) is abstracted as
the function argument `hash`; `newId` and `now` stand for the generated _id
and the creation timestamp. Note the duplicate check looks up the
lowercased input while the stored email is lowercased and then trimmed. -/
def registerUser (hash : String → String) (newId : Nat) (now : Nat)
    (store : List User) (req : RegisterReq) : List User × AuthResponse :=
  if optFalsy req.name || optFalsy req.email || optFalsy req.password then
    (store, .err 400 "Please provide name, email, and password")
  else if (req.password.getD "").length < 6 then
    (store, .err 400 "Password must be at least 6 characters long")
  else
    match User.findByEmail store (sLower (req.email.getD "")) with
    | some _ => (store, .err 400 "User with this email already exists")
    | none =>
        let u : User :=
          { id := newId
            name := sTrim (req.name.getD "")
            email := sTrim (sLower (req.email.getD ""))
            password := hash (req.password.getD "")
            role := optRole req.role
            createdAt := now }
        (store ++ [u], .created u.id u.name u.email u.role)

/-- Embedding of loginUser. The bcrypt comparison is abstracted as the
function argument `cmp`; both failure branches answer 401 with the same
generic message. -/
def loginUser (cmp : String → String → Bool) (store : List User)
    (email : Option String) (password : Option String) : AuthResponse :=
  if optFalsy email || optFalsy password then
    .err 400 "Please provide email and password"
  else
    match User.findByEmail store (sLower (email.getD "")) with
    | none => .err 401 "Invalid email or password"
    | some u =>
        if cmp (password.getD "") u.password then
          .loggedIn u.id u.name u.email u.role
        else
          .err 401 "Invalid email or password"

/-- Field changes of updateUserProfile's `updateData`: name when truthy
(trimmed), email when truthy (lowercased then trimmed); nothing else. -/
def applyProfileUpdate (u : User) (name : Option String) (email : Option String) : User :=
  let u1 := if optFalsy name then u else { u with name := sTrim (name.getD "") }
  if optFalsy email then u1 else { u1 with email := sTrim (sLower (email.getD "")) }

/-- Embedding of updateUserProfile: when an email is supplied, conflict
check against every other user's stored email; then findByIdAndUpdate with
only the supplied fields, answering the updated password-free record. -/
def updateUserProfile (store : List User) (userId : Nat)
    (name : Option String) (email : Option String) : List User × AuthResponse :=
  if !optFalsy email &&
      store.any (fun u => u.email == sLower (email.getD "") && u.id != userId) then
    (store, .err 400 "Email is already taken by another user")
  else
    match store.find? (fun u => u.id == userId) with
    | none => (store, .err 404 "User not found")
    | some u0 =>
        let u' := applyProfileUpdate u0 name email
        (store.map (fun u => if u.id == userId then applyProfileUpdate u name email else u),
         .profileOk u'.id u'.name u'.email u'.role)

/-- Strengthened rating invariant over a store, against a ghost assignment
of accepted-submission histories: an absent product has an empty history,
a present one satisfies the running-mean relation for its history. -/
def storeInv (store : List Product) (hist : String → List ℚ) : Prop :=
  ∀ pid, (Product.findById store pid = .ok none → hist pid = []) ∧
    (∀ p, Product.findById store pid = .ok (some p) → ratingMeanOf p (hist pid))

/-- A well-formed ObjectId used by the concrete test stores. -/
def idA : String := "aaaaaaaaaaaaaaaaaaaaaaaa"

/-- Concrete active product used in concrete evaluations. -/
def prodBase : Product where
  id := "aaaaaaaaaaaaaaaaaaaaaaaa"
  name := "ab"
  description := "cd"
  price := 10
  image := "http://x/a.jpg"
  category := "books"
  brand := "B"
  rating := 0
  ratingCount := 0
  stock := 3
  isActive := true
  createdAt := 0

/-- Concrete inactive product in category books. -/
def prodInactive : Product := { prodBase with isActive := false }

/-- Concrete product whose three searchable fields contain no dot. -/
def prodShirt : Product := { prodBase with name := "T-Shirt", description := "Nice", category := "clothing" }

/-- Complete create body (no rating field) used by concrete runs. -/
def bodyFull : ProductBody where
  name := some "ab"
  description := some "cd"
  price := some 10
  image := some "http://x/a.jpg"
  category := some "books"
  stock := some 3
  brand := none
  rating := none

/-- Update body carrying only a rating field. -/
def bodyRate5 : ProductBody where
  name := none
  description := none
  price := none
  image := none
  category := none
  stock := none
  brand := none
  rating := some 5

/-- Operation sequence whose update call overwrites the rating: create,
one accepted submission of 3, then an update with rating 5 in the body. -/
def opsBreak : List Op :=
  [Op.create idA 0 bodyFull, Op.rate idA 3, Op.update idA bodyRate5]

/-- Operation sequence with rating-free bodies: create, then submissions 4 and 2. -/
def opsMean : List Op :=
  [Op.create idA 0 bodyFull, Op.rate idA 4, Op.rate idA 2]

/-- Concrete stored user for the auth runs. -/
def userA : User where
  id := 1
  name := "A"
  email := "a@x.com"
  password := "secret1"
  role := "user"
  createdAt := 0

/-- Registration request whose email carries a leading space. -/
def reqSpaceA : RegisterReq where
  name := some "A"
  email := some " a@x.com"
  password := some "secret1"
  role := none

/-- Second registration request with the identical whitespace-bearing email. -/
def reqSpaceB : RegisterReq where
  name := some "B"
  email := some " a@x.com"
  password := some "secret1"
  role := none

/-- Registration request with a trimmed email. -/
def reqPlainA : RegisterReq where
  name := some "A"
  email := some "a@x.com"
  password := some "secret1"
  role := none

/-- Second registration request with the same trimmed email, different case. -/
def reqPlainB : RegisterReq where
  name := some "B"
  email := some "A@x.com"
  password := some "secret2"
  role := none

/-- C3: updateProductRating answers the 400 validation error exactly when the
submitted value is falsy (0) or outside [0,5]; a submission of exactly 0 is
rejected; any value in (0,5] on a product the lookup finds is accepted with
the updated document. -/
theorem rateProduct_validation_iff (store : List Product) (id : String) (v : ℚ) :
    ((updateProductRating store id v).2 = .err 400 "Invalid rating value. Must be between 0 and 5."
      ↔ (v = 0 ∨ v < 0 ∨ 5 < v))
    ∧ (updateProductRating store id 0).2 = .err 400 "Invalid rating value. Must be between 0 and 5."
    ∧ (∀ p, 0 < v → v ≤ 5 → Product.findById store id = .ok (some p) →
        (updateProductRating store id v).2 = .okP 200 (ratingStep p v)) := by
  have hinv : ratingInvalid v = true ↔ (v = 0 ∨ v < 0 ∨ 5 < v) := by
    simp [ratingInvalid, or_assoc]
  refine ⟨?_, ?_, ?_⟩
  · by_cases h : ratingInvalid v = true
    · simp [updateProductRating, h, hinv.mp h]
    · rw [← hinv]
      simp only [h, iff_false]
      rcases heq : Product.findById store id with he | ho
      · simp [updateProductRating, h, heq]
      · cases ho <;> simp [updateProductRating, h, heq]
  · simp [updateProductRating, ratingInvalid]
  · intro p h0 h5 hfind
    have h : ratingInvalid v = false := by
      simp [ratingInvalid, h0.ne', not_lt.mpr h0.le, not_lt.mpr h5]
    simp [updateProductRating, h, hfind]

/-- Witness for C3: the concrete submission of 4 on the fresh product is
accepted with the stepped document. -/
theorem rateProduct_validation_iff_witness :
    (updateProductRating [prodBase] idA 4).2 = .okP 200 (ratingStep prodBase 4) :=
  (rateProduct_validation_iff [prodBase] idA 4).2.2 prodBase (by norm_num) (by norm_num)
    (by simp +decide [Product.findById, prodBase, idA])

/-- C5 counterexample: on a malformed id the handler's try/catch answers the
500 internal error, not the 404 the claim states. -/
theorem getById_malformed_cex :
    getProductById [] "nope" = .err 500 "Error fetching product"
    ∧ getProductById [] "nope" ≠ .err 404 "Product not found" := by
  constructor
  · simp +decide [getProductById, Product.findById, isValidObjectId]
  · simp +decide [getProductById, Product.findById, isValidObjectId]

/-- C5 amended: getById answers 404 exactly on a well-formed id that is
absent; a malformed id is caught and answered as the 500 internal error
(never a crash, never any other status); a found product is answered 200. -/
theorem getById_status (store : List Product) (id : String) :
    (isValidObjectId id = false → getProductById store id = .err 500 "Error fetching product")
    ∧ (Product.findById store id = .ok none → getProductById store id = .err 404 "Product not found")
    ∧ (∀ p, Product.findById store id = .ok (some p) → getProductById store id = .okP 200 p) := by
  refine ⟨fun h => ?_, fun h => ?_, fun p h => ?_⟩
  · simp [getProductById, Product.findById, h]
  · simp [getProductById, h]
  · simp [getProductById, h]

/-- Witness for the amended C5: the three statuses at concrete inputs. -/
theorem getById_status_witness :
    getProductById [prodBase] "nope" = .err 500 "Error fetching product"
    ∧ getProductById [] idA = .err 404 "Product not found"
    ∧ getProductById [prodBase] idA = .okP 200 prodBase := by
  refine ⟨(getById_status [prodBase] "nope").1 (by decide),
    (getById_status [] idA).2.1 (by simp +decide [Product.findById, idA]),
    (getById_status [prodBase] idA).2.2 prodBase ?_⟩
  simp +decide [Product.findById, prodBase, idA]

/-- C4: the controller's getProductsByCategory returns an inactive product of
the requested category, while the model's findByCategory static (which the
route never calls) excludes it — the isActive filter the spec states is
absent from the live handler. -/
theorem byCategory_returns_inactive :
    getProductsByCategory [prodInactive] "books" = .okList [prodInactive]
    ∧ prodInactive.category = "books"
    ∧ prodInactive.isActive = false
    ∧ Product.findByCategory [prodInactive] "books" = [] := by
  refine ⟨?_, by decide, by decide, ?_⟩
  · simp +decide [getProductsByCategory, sortByCreatedAtDesc, insertDesc, prodInactive, prodBase]
  · simp +decide [Product.findByCategory, sortByCreatedAtDesc, prodInactive, prodBase]

/-- C7: login answers the same 401 response with the identical generic
message whether the email is absent from the store or the password
comparison fails on a present email. -/
theorem login_generic_failure (cmp : String → String → Bool) (s1 s2 : List User)
    (e1 p1 e2 p2 : String) (u : User)
    (he1 : e1 ≠ "") (hp1 : p1 ≠ "") (he2 : e2 ≠ "") (hp2 : p2 ≠ "")
    (h1 : User.findByEmail s1 (sLower e1) = none)
    (h2 : User.findByEmail s2 (sLower e2) = some u)
    (hcmp : cmp p2 u.password = false) :
    loginUser cmp s1 (some e1) (some p1) = .err 401 "Invalid email or password"
    ∧ loginUser cmp s2 (some e2) (some p2) = loginUser cmp s1 (some e1) (some p1) := by
  have H1 : loginUser cmp s1 (some e1) (some p1) = .err 401 "Invalid email or password" := by
    simp [loginUser, optFalsy, he1, hp1, h1]
  have H2 : loginUser cmp s2 (some e2) (some p2) = .err 401 "Invalid email or password" := by
    simp [loginUser, optFalsy, he2, hp2, h2, hcmp]
  exact ⟨H1, H2.trans H1.symm⟩

/-- Witness for C7: a concrete unknown-email run and a concrete
wrong-password run produce the identical response. -/
theorem login_generic_failure_witness :
    loginUser (fun _ _ => false) [] (some "b@x.com") (some "pw1")
      = .err 401 "Invalid email or password"
    ∧ loginUser (fun _ _ => false) [userA] (some "a@x.com") (some "wrong1")
      = loginUser (fun _ _ => false) [] (some "b@x.com") (some "pw1") :=
  login_generic_failure (fun _ _ => false) [] [userA] "b@x.com" "pw1" "a@x.com" "wrong1" userA
    (by decide) (by decide) (by decide) (by decide) (by decide)
    (by decide) rfl

/-- C10: registering a@x.com and then the same address with a leading space
both succeed — the duplicate check looks up the lowercased un-trimmed
input while the first user was stored lowercased and trimmed — and the two
stored users carry the identical normalized email. -/
theorem register_whitespace_email_bypasses_duplicate_check :
    (registerUser (fun s => s) 1 0 [] reqPlainA).2 = .created 1 "A" "a@x.com" "user"
    ∧ (registerUser (fun s => s) 2 1 (registerUser (fun s => s) 1 0 [] reqPlainA).1 reqSpaceB).2
        = .created 2 "B" "a@x.com" "user"
    ∧ ((registerUser (fun s => s) 2 1 (registerUser (fun s => s) 1 0 [] reqPlainA).1 reqSpaceB).1).map
        User.email = ["a@x.com", "a@x.com"] := by
  refine ⟨by decide, by decide, by decide⟩

/-- Helper: find? over an appended list looks left first. -/
theorem find?_append_or {α} (π : α → Bool) (l₁ l₂ : List α) :
    List.find? π (l₁ ++ l₂) = ((List.find? π l₁).orElse (fun _ => List.find? π l₂)) := by
  induction l₁ with
  | nil => simp
  | cons a t ih => by_cases h : π a <;> simp [List.find?_cons, h, ih]

/-- Helper: applyProfileUpdate never touches id, password, role or
createdAt, and leaves name/email alone when that field is falsy. -/
theorem applyProfileUpdate_frame (u : User) (n e : Option String) :
    (applyProfileUpdate u n e).id = u.id
    ∧ (applyProfileUpdate u n e).password = u.password
    ∧ (applyProfileUpdate u n e).role = u.role
    ∧ (applyProfileUpdate u n e).createdAt = u.createdAt
    ∧ (optFalsy n = true → (applyProfileUpdate u n e).name = u.name)
    ∧ (optFalsy e = true → (applyProfileUpdate u n e).email = u.email) := by
  unfold applyProfileUpdate
  split_ifs with h1 h2 <;> simp_all

/-- C9: every user record in the store after an updateUserProfile call comes
from a record of the old store with the same id, password, role and
createdAt; its name (resp. email) is unchanged unless that field was
supplied truthy, and records of other users are untouched entirely. -/
theorem updateProfile_frame (store : List User) (userId : Nat)
    (name : Option String) (email : Option String) (u' : User)
    (hu : u' ∈ (updateUserProfile store userId name email).1) :
    ∃ u, u ∈ store ∧ u'.id = u.id ∧ u'.password = u.password ∧ u'.role = u.role
      ∧ u'.createdAt = u.createdAt
      ∧ (optFalsy name = true → u'.name = u.name)
      ∧ (optFalsy email = true → u'.email = u.email)
      ∧ (u.id ≠ userId → u' = u) := by
  unfold updateUserProfile at hu
  split at hu
  · exact ⟨u', hu, rfl, rfl, rfl, rfl, fun _ => rfl, fun _ => rfl, fun _ => rfl⟩
  · rcases hfind : store.find? (fun u => u.id == userId) with _ | u0 <;> rw [hfind] at hu
    · exact ⟨u', hu, rfl, rfl, rfl, rfl, fun _ => rfl, fun _ => rfl, fun _ => rfl⟩
    · simp only [List.mem_map] at hu
      obtain ⟨u, hmem, hv⟩ := hu
      by_cases hid : u.id = userId
      · obtain ⟨f1, f2, f3, f4, f5, f6⟩ := applyProfileUpdate_frame u name email
        have hif : (if u.id == userId then applyProfileUpdate u name email else u)
            = applyProfileUpdate u name email := by simp [hid]
        refine ⟨u, hmem, ?_⟩
        rw [← hv, hif]
        exact ⟨f1, f2, f3, f4, f5, f6, fun hne => absurd hid hne⟩
      · have hif : (if u.id == userId then applyProfileUpdate u name email else u) = u := by
          simp [hid]
        refine ⟨u, hmem, ?_⟩
        rw [← hv, hif]
        exact ⟨rfl, rfl, rfl, rfl, fun _ => rfl, fun _ => rfl, fun _ => rfl⟩

/-- Witness for C9: a concrete name-only profile update on a one-user store. -/
theorem updateProfile_frame_witness :
    ∃ u, u ∈ [userA] ∧ ({ userA with name := "N" } : User).id = u.id
      ∧ ({ userA with name := "N" } : User).password = u.password
      ∧ ({ userA with name := "N" } : User).role = u.role
      ∧ ({ userA with name := "N" } : User).createdAt = u.createdAt
      ∧ (optFalsy (some "N") = true → ({ userA with name := "N" } : User).name = u.name)
      ∧ (optFalsy (none : Option String) = true → ({ userA with name := "N" } : User).email = u.email)
      ∧ (u.id ≠ 1 → ({ userA with name := "N" } : User) = u) :=
  updateProfile_frame [userA] 1 (some "N") none { userA with name := "N" } (by decide)

/-- C8 counterexample: two register calls with the literally identical
email ' a@x.com' (leading space) both answer 201; the second is not the
ConflictError the claim requires, because the duplicate check looks up the
lowercased un-trimmed input while the stored value was trimmed. -/
theorem register_twice_same_email_cex :
    (registerUser (fun s => s) 1 0 [] reqSpaceA).2 = .created 1 "A" "a@x.com" "user"
    ∧ (registerUser (fun s => s) 2 1 (registerUser (fun s => s) 1 0 [] reqSpaceA).1 reqSpaceB).2
        = .created 2 "B" "a@x.com" "user"
    ∧ (registerUser (fun s => s) 2 1 (registerUser (fun s => s) 1 0 [] reqSpaceA).1 reqSpaceB).2
        ≠ .err 400 "User with this email already exists" := by
  refine ⟨by decide, by decide, by decide⟩

/-- C8 amended: register answers the 400 validation error when a field is
missing or the password is short, the conflict error when a stored user
carries exactly the lowercased input email, and otherwise stores the user
(role defaulting to user) — so registering twice with the same
case-insensitive email yields the conflict error on the second attempt
provided the email has no leading or trailing whitespace. -/
theorem register_validation_conflict (hash : String → String) (i1 n1 : Nat)
    (store : List User) (req : RegisterReq) :
    ((optFalsy req.name || optFalsy req.email || optFalsy req.password) = true →
       (registerUser hash i1 n1 store req).2 = .err 400 "Please provide name, email, and password")
    ∧ ((optFalsy req.name || optFalsy req.email || optFalsy req.password) = false →
       (req.password.getD "").length < 6 →
       (registerUser hash i1 n1 store req).2 = .err 400 "Password must be at least 6 characters long")
    ∧ (∀ u, (optFalsy req.name || optFalsy req.email || optFalsy req.password) = false →
       ¬(req.password.getD "").length < 6 →
       User.findByEmail store (sLower (req.email.getD "")) = some u →
       (registerUser hash i1 n1 store req).2 = .err 400 "User with this email already exists")
    ∧ ((optFalsy req.name || optFalsy req.email || optFalsy req.password) = false →
       ¬(req.password.getD "").length < 6 →
       User.findByEmail store (sLower (req.email.getD "")) = none →
       registerUser hash i1 n1 store req =
         (store ++ [{ id := i1, name := sTrim (req.name.getD ""),
                      email := sTrim (sLower (req.email.getD "")),
                      password := hash (req.password.getD ""), role := optRole req.role,
                      createdAt := n1 }],
          .created i1 (sTrim (req.name.getD "")) (sTrim (sLower (req.email.getD ""))) (optRole req.role))
       ∧ (req.role = none → optRole req.role = "user"))
    ∧ (∀ i2 n2 req2,
       (optFalsy req.name || optFalsy req.email || optFalsy req.password) = false →
       ¬(req.password.getD "").length < 6 →
       User.findByEmail store (sLower (req.email.getD "")) = none →
       sTrim (sLower (req.email.getD "")) = sLower (req.email.getD "") →
       (optFalsy req2.name || optFalsy req2.email || optFalsy req2.password) = false →
       ¬(req2.password.getD "").length < 6 →
       sLower (req2.email.getD "") = sLower (req.email.getD "") →
       (registerUser hash i2 n2 (registerUser hash i1 n1 store req).1 req2).2
         = .err 400 "User with this email already exists") := by
  refine ⟨fun h => ?_, fun h hlen => ?_, fun u h hlen hfind => ?_, fun h hlen hfind => ?_,
    fun i2 n2 req2 h hlen hfind htrim h2 hlen2 hemail => ?_⟩
  · simp [registerUser, h]
  · simp [registerUser, h, hlen]
  · simp [registerUser, h, hlen, hfind]
  · refine ⟨?_, fun hr => by simp [optRole, hr]⟩
    simp [registerUser, h, hlen, hfind]
  · have hstore : (registerUser hash i1 n1 store req).1 =
        store ++ [{ id := i1, name := sTrim (req.name.getD ""),
                    email := sTrim (sLower (req.email.getD "")),
                    password := hash (req.password.getD ""), role := optRole req.role,
                    createdAt := n1 }] := by
      simp [registerUser, h, hlen, hfind]
    have hfind2 : User.findByEmail (registerUser hash i1 n1 store req).1
        (sLower (req2.email.getD "")) =
        some { id := i1, name := sTrim (req.name.getD ""),
               email := sTrim (sLower (req.email.getD "")),
               password := hash (req.password.getD ""), role := optRole req.role,
               createdAt := n1 } := by
      rw [hstore, hemail]
      unfold User.findByEmail at hfind ⊢
      rw [find?_append_or, hfind]
      simp [List.find?_cons, htrim]
    obtain ⟨u1, hfind2⟩ : ∃ u1, User.findByEmail (registerUser hash i1 n1 store req).1
        (sLower (req2.email.getD "")) = some u1 := ⟨_, hfind2⟩
    generalize (registerUser hash i1 n1 store req).1 = s1 at hfind2 ⊢
    simp [registerUser, h2, hlen2, hfind2]

/-- Witness for the amended C8: registering a@x.com then A@x.com on an
empty store yields the conflict error on the second attempt. -/
theorem register_validation_conflict_witness :
    (registerUser (fun s => s) 2 1 (registerUser (fun s => s) 1 0 [] reqPlainA).1 reqPlainB).2
      = .err 400 "User with this email already exists" :=
  (register_validation_conflict (fun s => s) 1 0 [] reqPlainA).2.2.2.2 2 1 reqPlainB
    (by decide) (by decide) (by decide) (by decide) (by decide) (by decide) (by decide)

/-- Helper: an anchored match of an all-literal pattern is a lowercased
prefix test. -/
theorem matchHere_litMap (l : List Char) (s : List Char) :
    matchHere (l.map RTok.lit) s = isPrefixB (l.map Char.toLower) (s.map Char.toLower) := by
  induction l generalizing s with
  | nil => simp [matchHere, isPrefixB]
  | cons a l ih =>
    cases s with
    | nil => simp [matchHere, isPrefixB]
    | cons c s => simp [matchHere, isPrefixB, charMatches, ih]

/-- Helper: an unanchored search for an all-literal pattern is a lowercased
substring test. -/
theorem regexFind_litMap (s : List Char) (l : List Char) :
    regexFind (l.map RTok.lit) s = isInfixB (l.map Char.toLower) (s.map Char.toLower) := by
  induction s with
  | nil => cases l <;> simp [regexFind, matchHere, isInfixB, isPrefixB]
  | cons c s ih => simp [regexFind, isInfixB, matchHere_litMap, ih]

/-- Helper: a query with no regex metacharacter parses to an all-literal
pattern. -/
theorem parsePattern_of_noMeta (q : String) (h : noMetaChars q = true) :
    parsePattern q = q.data.map RTok.lit := by
  unfold parsePattern
  apply List.map_congr_left
  intro c hc
  have hmem : regexMetaChars.contains c = false := by
    unfold noMetaChars at h
    simpa using (List.all_eq_true.mp h) c hc
  have hdot : ¬(c = '.') := by
    intro hcd
    rw [hcd] at hmem
    exact absurd hmem (by decide)
  simp [hdot]

/-- Helper: membership through the insertion step of the sort. -/
theorem mem_insertDesc (a p : Product) (l : List Product) :
    a ∈ insertDesc p l ↔ a = p ∨ a ∈ l := by
  induction l with
  | nil => simp [insertDesc]
  | cons q t ih =>
    by_cases h : p.createdAt ≤ q.createdAt
    · simp only [insertDesc, h, if_true, List.mem_cons, ih]
      tauto
    · simp [insertDesc, h]

/-- Helper: the descending sort does not change membership. -/
theorem mem_sortByCreatedAtDesc (a : Product) (l : List Product) :
    a ∈ sortByCreatedAtDesc l ↔ a ∈ l := by
  induction l with
  | nil => simp [sortByCreatedAtDesc]
  | cons p t ih => simp [sortByCreatedAtDesc, mem_insertDesc, ih]

/-- C6 counterexample: the query "." (a regex wildcard) returns a product
none of whose three searchable fields contains "." as a substring. -/
theorem search_dot_cex :
    searchProducts [prodShirt] (some ".") = .okList [prodShirt]
    ∧ containsCI prodShirt.name "." = false
    ∧ containsCI prodShirt.description "." = false
    ∧ containsCI prodShirt.category "." = false := by
  refine ⟨?_, by decide, by decide, by decide⟩
  simp +decide [searchProducts, searchMatches, fieldMatches, parsePattern, regexFind, matchHere,
    charMatches, optFalsy, sortByCreatedAtDesc, insertDesc, prodShirt, prodBase]

/-- C6 amended: for a non-empty query containing no regex metacharacter,
every product searchProducts returns contains the query case-insensitively
as a substring of its name, description or category. -/
theorem search_noMeta_substring (store : List Product) (q : String) (ps : List Product)
    (p : Product) (hq : q ≠ "") (hm : noMetaChars q = true)
    (hres : searchProducts store (some q) = .okList ps) (hp : p ∈ ps) :
    containsCI p.name q = true ∨ containsCI p.description q = true
      ∨ containsCI p.category q = true := by
  have hfq : optFalsy (some q) = false := by simp [optFalsy, hq]
  unfold searchProducts at hres
  rw [hfq] at hres
  simp only [Bool.false_eq_true, if_false, ProductResponse.okList.injEq] at hres
  rw [← hres, mem_sortByCreatedAtDesc] at hp
  have hmatch : searchMatches q p = true := (List.mem_filter.mp hp).2
  unfold searchMatches fieldMatches at hmatch
  rw [parsePattern_of_noMeta q hm, Bool.or_eq_true, Bool.or_eq_true] at hmatch
  unfold containsCI
  rcases hmatch with (h | h) | h <;> rw [regexFind_litMap] at h
  · exact Or.inl h
  · exact Or.inr (Or.inl h)
  · exact Or.inr (Or.inr h)

/-- Helper: a rating step never changes the document id. -/
theorem ratingStep_id (p : Product) (v : ℚ) : (ratingStep p v).id = p.id := by
  unfold ratingStep
  split <;> rfl

/-- Helper: the rating step on a nonzero count is the incremental mean. -/
theorem ratingStep_of_pos (p : Product) (v : ℚ) (h : p.ratingCount ≠ 0) :
    ratingStep p v = { p with ratingCount := p.ratingCount + 1, rating := (p.rating * (p.ratingCount : ℚ) + v) / ((p.ratingCount : ℚ) + 1) } := by
  simp [ratingStep, h, Nat.cast_add_one]

/-- Helper: on a nonzero count, the stepped rating times the stepped count
is the old rating-times-count plus the submission (the division cancels). -/
theorem ratingStep_mul_count (p : Product) (v : ℚ) (h : p.ratingCount ≠ 0) :
    (ratingStep p v).rating * ((ratingStep p v).ratingCount : ℚ)
      = p.rating * (p.ratingCount : ℚ) + v := by
  rw [ratingStep_of_pos p v h]
  push_cast
  rw [div_mul_cancel₀]
  positivity

/-- Helper: the rating step on a zero count installs the first submission. -/
theorem ratingStep_of_zero (p : Product) (v : ℚ) (h : p.ratingCount = 0) :
    ratingStep p v = { p with rating := v, ratingCount := 1 } := by
  simp [ratingStep, h]

/-- Helper: an accepted submission on a one-product store steps that product. -/
theorem updateProductRating_single (p : Product) (v : ℚ)
    (hid : isValidObjectId p.id = true) (hv : ratingInvalid v = false) :
    updateProductRating [p] p.id v = ([ratingStep p v], .okP 200 (ratingStep p v)) := by
  simp [updateProductRating, hv, Product.findById, hid, List.find?_cons, saveById, ratingStep_id]

/-- Helper: iterated rating never changes the document id. -/
theorem foldl_ratingStep_id (vs : List ℚ) (p : Product) :
    (vs.foldl ratingStep p).id = p.id := by
  induction vs generalizing p with
  | nil => rfl
  | cons v vs ih => simp only [List.foldl_cons]; rw [ih, ratingStep_id]

/-- Helper: a run of accepted submissions on a one-product store folds the
rating step over the submissions. -/
theorem rateMany_single (vs : List ℚ) (p : Product)
    (hid : isValidObjectId p.id = true) (hvs : ∀ v ∈ vs, ratingInvalid v = false) :
    rateMany [p] p.id vs = [vs.foldl ratingStep p] := by
  induction vs generalizing p with
  | nil => simp [rateMany]
  | cons v vs ih =>
    have hv : ratingInvalid v = false := hvs v (by simp)
    have h1 : (updateProductRating [p] p.id v).1 = [ratingStep p v] := by
      rw [updateProductRating_single p v hid hv]
    have hrec := ih (ratingStep p v) (by rw [ratingStep_id]; exact hid)
      (fun w hw => hvs w (by simp [hw]))
    rw [ratingStep_id] at hrec
    unfold rateMany at hrec ⊢
    simp only [List.foldl_cons, h1]
    exact hrec

/-- Helper: from a nonzero count, folding the rating step adds the number of
submissions to the count and their sum to the rating-times-count product. -/
theorem foldl_ratingStep_count_sum (vs : List ℚ) (p : Product) (h : p.ratingCount ≠ 0) :
    (vs.foldl ratingStep p).ratingCount = p.ratingCount + vs.length
    ∧ (vs.foldl ratingStep p).rating * ((p.ratingCount + vs.length : Nat) : ℚ)
      = p.rating * (p.ratingCount : ℚ) + vs.sum := by
  induction vs generalizing p with
  | nil => simp
  | cons v vs ih =>
    have hcount : (ratingStep p v).ratingCount = p.ratingCount + 1 := by
      rw [ratingStep_of_pos p v h]
    have h' : (ratingStep p v).ratingCount ≠ 0 := by omega
    obtain ⟨ihc, ihs⟩ := ih (ratingStep p v) h'
    rw [ratingStep_mul_count p v h] at ihs
    rw [hcount] at ihc ihs
    have harr : p.ratingCount + 1 + vs.length = p.ratingCount + (vs.length + 1) := by omega
    rw [harr] at ihs
    constructor
    · simp only [List.foldl_cons, ihc, List.length_cons]
      omega
    · simp only [List.foldl_cons, List.length_cons, List.sum_cons]
      rw [ihs]
      ring

/-- Helper: from a fresh product, folding the rating step yields the count
and the exact mean of the submissions. -/
theorem foldl_ratingStep_fresh (vs : List ℚ) (p : Product) (h : p.ratingCount = 0)
    (hne : vs ≠ []) :
    (vs.foldl ratingStep p).ratingCount = vs.length
    ∧ (vs.foldl ratingStep p).rating = vs.sum / ((vs.length : Nat) : ℚ) := by
  cases vs with
  | nil => exact absurd rfl hne
  | cons v vs =>
    have hzero := ratingStep_of_zero p v h
    have h1 : (ratingStep p v).ratingCount = 1 := by rw [hzero]
    have hr : (ratingStep p v).rating = v := by rw [hzero]
    have h' : (ratingStep p v).ratingCount ≠ 0 := by omega
    obtain ⟨ihc, ihs⟩ := foldl_ratingStep_count_sum vs (ratingStep p v) h'
    rw [h1] at ihc ihs
    rw [hr] at ihs
    have harr : 1 + vs.length = vs.length + 1 := by omega
    rw [harr] at ihc ihs
    have hlen : (((vs.length + 1 : Nat)) : ℚ) ≠ 0 :=
      Nat.cast_ne_zero.mpr (Nat.succ_ne_zero vs.length)
    constructor
    · simp only [List.foldl_cons, ihc, List.length_cons]
    · simp only [List.foldl_cons, List.length_cons, List.sum_cons]
      refine (eq_div_iff hlen).mpr ?_
      rw [ihs]
      push_cast
      ring

/-- C1: an accepted submission v on a product with count c at least 1 stores
the rating (r*c+v)/(c+1) and the count c+1; on a fresh product (count 0) it
stores rating v and count 1; and n accepted submissions on a fresh
one-product store leave the exact mean of the submissions and count n. -/
theorem rateProduct_incremental_mean :
    (∀ store id v p, Product.findById store id = .ok (some p) → ratingInvalid v = false →
      1 ≤ p.ratingCount →
      updateProductRating store id v = (saveById store (ratingStep p v), .okP 200 (ratingStep p v))
      ∧ (ratingStep p v).rating = (p.rating * (p.ratingCount : ℚ) + v) / ((p.ratingCount : ℚ) + 1)
      ∧ (ratingStep p v).ratingCount = p.ratingCount + 1)
    ∧ (∀ store id v p, Product.findById store id = .ok (some p) → ratingInvalid v = false →
      p.ratingCount = 0 →
      updateProductRating store id v = (saveById store (ratingStep p v), .okP 200 (ratingStep p v))
      ∧ (ratingStep p v).rating = v ∧ (ratingStep p v).ratingCount = 1)
    ∧ (∀ p vs, isValidObjectId p.id = true → p.ratingCount = 0 →
      (∀ v ∈ vs, ratingInvalid v = false) → vs ≠ [] →
      Product.findById (rateMany [p] p.id vs) p.id = .ok (some (vs.foldl ratingStep p))
      ∧ (vs.foldl ratingStep p).rating = vs.sum / ((vs.length : Nat) : ℚ)
      ∧ (vs.foldl ratingStep p).ratingCount = vs.length) := by
  refine ⟨fun store id v p hfind hv hc => ⟨?_, ?_, ?_⟩,
    fun store id v p hfind hv hc => ⟨?_, ?_, ?_⟩,
    fun p vs hid hc hvs hne => ⟨?_, (foldl_ratingStep_fresh vs p hc hne).2,
      (foldl_ratingStep_fresh vs p hc hne).1⟩⟩
  · simp [updateProductRating, hv, hfind]
  · rw [ratingStep_of_pos p v (by omega)]
  · rw [ratingStep_of_pos p v (by omega)]
  · simp [updateProductRating, hv, hfind]
  · rw [ratingStep_of_zero p v hc]
  · rw [ratingStep_of_zero p v hc]
  · rw [rateMany_single vs p hid hvs]
    have hq : (vs.foldl ratingStep p).id = p.id := foldl_ratingStep_id vs p
    simp [Product.findById, hid, List.find?_cons, hq]

/-- Witness for C1: submissions 4 then 2 on the fresh product store leave
its mean 3 and count 2. -/
theorem rateProduct_incremental_mean_witness :
    Product.findById (rateMany [prodBase] prodBase.id [4, 2]) prodBase.id
      = .ok (some ([(4 : ℚ), 2].foldl ratingStep prodBase))
    ∧ ([(4 : ℚ), 2].foldl ratingStep prodBase).rating
        = ([(4 : ℚ), 2].sum) / ((([(4 : ℚ), 2].length : Nat)) : ℚ)
    ∧ ([(4 : ℚ), 2].foldl ratingStep prodBase).ratingCount = [(4 : ℚ), 2].length :=
  rateProduct_incremental_mean.2.2 prodBase [4, 2] (by decide) (by decide)
    (by decide) (by simp)

/-- Helper: findById answers ok none exactly on a well-formed id absent
from the store. -/
theorem findById_eq_ok_none (store : List Product) (pid : String) :
    Product.findById store pid = .ok none
      ↔ (isValidObjectId pid = true ∧ List.find? (fun q => q.id == pid) store = none) := by
  unfold Product.findById
  by_cases hv : isValidObjectId pid <;> simp [hv]

/-- Helper: findById answers ok some exactly on a well-formed id whose first
match is that document. -/
theorem findById_eq_ok_some (store : List Product) (pid : String) (p : Product) :
    Product.findById store pid = .ok (some p)
      ↔ (isValidObjectId pid = true ∧ List.find? (fun q => q.id == pid) store = some p) := by
  unfold Product.findById
  by_cases hv : isValidObjectId pid <;> simp [hv]

/-- Helper: find? over a map by an id-preserving function is the mapped
find?. -/
theorem find?_map_of_id_pres (g : Product → Product) (hg : ∀ q, (g q).id = q.id)
    (store : List Product) (pid : String) :
    List.find? (fun q => q.id == pid) (store.map g)
      = (List.find? (fun q => q.id == pid) store).map g := by
  induction store with
  | nil => simp
  | cons a t ih =>
    by_cases h : a.id == pid
    · simp [List.find?_cons, hg, h]
    · simp [List.find?_cons, hg, h, ih]

/-- Helper: the replacement function used by saveById preserves ids. -/
theorem saveFun_id (p2 q : Product) : (if q.id == p2.id then p2 else q).id = q.id := by
  by_cases h : q.id == p2.id
  · simp only [h, if_true]
    exact (beq_iff_eq.mp h).symm
  · simp [h]

/-- Helper: the name setter leaves id, ratingCount and rating unchanged. -/
theorem setName_frame (b : ProductBody) (p : Product) :
    (setName b p).id = p.id ∧ (setName b p).ratingCount = p.ratingCount
    ∧ (setName b p).rating = p.rating := by
  unfold setName
  split <;> exact ⟨rfl, rfl, rfl⟩

/-- Helper: the description setter leaves id, ratingCount and rating unchanged. -/
theorem setDescription_frame (b : ProductBody) (p : Product) :
    (setDescription b p).id = p.id ∧ (setDescription b p).ratingCount = p.ratingCount
    ∧ (setDescription b p).rating = p.rating := by
  unfold setDescription
  split <;> exact ⟨rfl, rfl, rfl⟩

/-- Helper: the price setter leaves id, ratingCount and rating unchanged. -/
theorem setPrice_frame (b : ProductBody) (p : Product) :
    (setPrice b p).id = p.id ∧ (setPrice b p).ratingCount = p.ratingCount
    ∧ (setPrice b p).rating = p.rating := by
  unfold setPrice
  cases b.price <;> exact ⟨rfl, rfl, rfl⟩

/-- Helper: the image setter leaves id, ratingCount and rating unchanged. -/
theorem setImage_frame (b : ProductBody) (p : Product) :
    (setImage b p).id = p.id ∧ (setImage b p).ratingCount = p.ratingCount
    ∧ (setImage b p).rating = p.rating := by
  unfold setImage
  split <;> exact ⟨rfl, rfl, rfl⟩

/-- Helper: the category setter leaves id, ratingCount and rating unchanged. -/
theorem setCategory_frame (b : ProductBody) (p : Product) :
    (setCategory b p).id = p.id ∧ (setCategory b p).ratingCount = p.ratingCount
    ∧ (setCategory b p).rating = p.rating := by
  unfold setCategory
  split <;> exact ⟨rfl, rfl, rfl⟩

/-- Helper: the stock setter leaves id, ratingCount and rating unchanged. -/
theorem setStock_frame (b : ProductBody) (p : Product) :
    (setStock b p).id = p.id ∧ (setStock b p).ratingCount = p.ratingCount
    ∧ (setStock b p).rating = p.rating := by
  unfold setStock
  cases b.stock <;> exact ⟨rfl, rfl, rfl⟩

/-- Helper: the brand setter leaves id, ratingCount and rating unchanged. -/
theorem setBrand_frame (b : ProductBody) (p : Product) :
    (setBrand b p).id = p.id ∧ (setBrand b p).ratingCount = p.ratingCount
    ∧ (setBrand b p).rating = p.rating := by
  unfold setBrand
  split <;> exact ⟨rfl, rfl, rfl⟩

/-- Helper: the rating setter leaves id and ratingCount unchanged, and the
rating too when the body carries none. -/
theorem setRating_frame (b : ProductBody) (p : Product) :
    (setRating b p).id = p.id ∧ (setRating b p).ratingCount = p.ratingCount
    ∧ (b.rating = none → (setRating b p).rating = p.rating) := by
  obtain ⟨n, d, pr, im, ca, st, br, r⟩ := b
  unfold setRating
  cases r with
  | none => exact ⟨rfl, rfl, fun _ => rfl⟩
  | some x => exact ⟨rfl, rfl, fun hn => Option.noConfusion hn⟩

/-- Helper: the partial update preserves id and ratingCount always, and the
rating whenever the body carries no rating field. -/
theorem applyUpdate_frame (p : Product) (b : ProductBody) :
    (applyUpdate p b).id = p.id ∧ (applyUpdate p b).ratingCount = p.ratingCount
    ∧ (b.rating = none → (applyUpdate p b).rating = p.rating) := by
  obtain ⟨a1, a2, a3⟩ := setName_frame b p
  obtain ⟨b1, b2, b3⟩ := setDescription_frame b (setName b p)
  obtain ⟨c1, c2, c3⟩ := setPrice_frame b (setDescription b (setName b p))
  obtain ⟨d1, d2, d3⟩ := setImage_frame b (setPrice b (setDescription b (setName b p)))
  obtain ⟨e1, e2, e3⟩ := setCategory_frame b
    (setImage b (setPrice b (setDescription b (setName b p))))
  obtain ⟨f1, f2, f3⟩ := setStock_frame b
    (setCategory b (setImage b (setPrice b (setDescription b (setName b p)))))
  obtain ⟨g1, g2, g3⟩ := setBrand_frame b
    (setStock b (setCategory b (setImage b (setPrice b (setDescription b (setName b p))))))
  obtain ⟨h1, h2, h3⟩ := setRating_frame b
    (setBrand b (setStock b (setCategory b (setImage b (setPrice b
      (setDescription b (setName b p)))))))
  unfold applyUpdate
  refine ⟨?_, ?_, fun hn => ?_⟩
  · rw [h1, g1, f1, e1, d1, c1, b1, a1]
  · rw [h2, g2, f2, e2, d2, c2, b2, a2]
  · rw [h3 hn, g3, f3, e3, d3, c3, b3, a3]

/-- Helper: the partial update never changes the document id. -/
theorem applyUpdate_id (p : Product) (b : ProductBody) : (applyUpdate p b).id = p.id :=
  (applyUpdate_frame p b).1

/-- Helper: the partial update never changes ratingCount (it is not among
the updatable fields). -/
theorem applyUpdate_ratingCount (p : Product) (b : ProductBody) :
    (applyUpdate p b).ratingCount = p.ratingCount :=
  (applyUpdate_frame p b).2.1

/-- Helper: with no rating in the body, the partial update keeps the rating. -/
theorem applyUpdate_rating_of_none (p : Product) (b : ProductBody) (h : b.rating = none) :
    (applyUpdate p b).rating = p.rating :=
  (applyUpdate_frame p b).2.2 h

/-- Helper: createProduct either rejects (store unchanged) or appends the
freshly built document. -/
theorem createProduct_store (store : List Product) (newId : String) (now : Nat)
    (b : ProductBody) :
    (createProduct store newId now b).1 = store
    ∨ (createProduct store newId now b).1 = store ++ [mkProduct newId now b] := by
  unfold createProduct
  split_ifs <;> simp

/-- Helper: updateProduct either leaves the store unchanged or saves the
partial update of a found document. -/
theorem updateProduct_store (store : List Product) (id : String) (b : ProductBody) :
    (updateProduct store id b).1 = store
    ∨ ∃ p, Product.findById store id = .ok (some p)
        ∧ (updateProduct store id b).1 = saveById store (applyUpdate p b) := by
  unfold updateProduct
  split_ifs with h1 h2
  · left; rfl
  · left; rfl
  · rcases heq : Product.findById store id with he | ho
    · left; simp [heq]
    · cases ho with
      | none => left; simp [heq]
      | some p => right; exact ⟨p, rfl, by simp⟩

/-- Helper: updateProductRating either rejects (store unchanged, response
not accepted) or saves the rating step of a found document on a valid
submission. -/
theorem updateProductRating_store (store : List Product) (id : String) (v : ℚ) :
    ((updateProductRating store id v).1 = store
      ∧ isAccepted (updateProductRating store id v).2 = false)
    ∨ ∃ p, Product.findById store id = .ok (some p) ∧ ratingInvalid v = false
        ∧ (updateProductRating store id v).1 = saveById store (ratingStep p v)
        ∧ isAccepted (updateProductRating store id v).2 = true := by
  unfold updateProductRating
  split_ifs with h1
  · left; exact ⟨rfl, rfl⟩
  · rcases heq : Product.findById store id with he | ho
    · left; simp [heq, isAccepted]
    · cases ho with
      | none => left; simp [heq, isAccepted]
      | some p =>
          right
          exact ⟨p, rfl, by simpa using h1, by simp, by simp [isAccepted]⟩

/-- Helper: find? on a singleton list. -/
theorem find?_singleton (q : Product) (pid : String) :
    List.find? (fun x => x.id == pid) [q] = if q.id == pid then some q else none := by
  by_cases h : q.id == pid <;> simp [List.find?_cons, h]

/-- Helper: the freshly built document starts with ratingCount 0. -/
theorem mkProduct_ratingCount (newId : String) (now : Nat) (b : ProductBody) :
    (mkProduct newId now b).ratingCount = 0 := rfl

/-- Helper: with no rating in the body, the freshly built document starts
with the default rating 0. -/
theorem mkProduct_rating_none (newId : String) (now : Nat) (b : ProductBody)
    (h : b.rating = none) : (mkProduct newId now b).rating = 0 := by
  unfold mkProduct
  rw [h]
  rfl

/-- Helper: the running-mean relation only reads rating and ratingCount. -/
theorem ratingMeanOf_congr (p p' : Product) (subs : List ℚ)
    (hr : p'.rating = p.rating) (hc : p'.ratingCount = p.ratingCount)
    (h : ratingMeanOf p subs) : ratingMeanOf p' subs := by
  obtain ⟨h1, h2, h3⟩ := h
  exact ⟨by rw [hc]; exact h1, by rw [hr, hc]; exact h2, fun hn => by rw [hr]; exact h3 hn⟩

/-- Helper: one rating step extends the running-mean relation by the
submitted value. -/
theorem ratingMeanOf_step (p : Product) (subs : List ℚ) (v : ℚ)
    (h : ratingMeanOf p subs) : ratingMeanOf (ratingStep p v) (subs ++ [v]) := by
  obtain ⟨hc, hs, hz⟩ := h
  by_cases h0 : p.ratingCount = 0
  · have hsubs : subs = [] := List.eq_nil_of_length_eq_zero (by omega)
    rw [ratingStep_of_zero p v h0, hsubs]
    exact ⟨by simp, by simp, by simp⟩
  · refine ⟨?_, ?_, ?_⟩
    · rw [ratingStep_of_pos p v h0]
      simp [hc]
    · rw [ratingStep_mul_count p v h0, hs]
      simp
    · intro hn
      simp at hn

/-- Helper: one operation with a rating-free body preserves the
strengthened store invariant, extending each product's history by the
accepted submissions the operation contributes. -/
theorem storeInv_applyOp (op : Op) (store : List Product) (hist : String → List ℚ)
    (hop : opNoRatingBody op = true) (hinv : storeInv store hist) :
    storeInv (applyOp store op) (fun pid => hist pid ++ opSubs store op pid) := by
  cases op with
  | create newId now b =>
    have hbr : b.rating = none := by simpa [opNoRatingBody] using hop
    intro pid
    simp only [opSubs, List.append_nil]
    rcases createProduct_store store newId now b with hs | hs <;>
      simp only [applyOp] <;> rw [hs]
    · exact hinv pid
    · constructor
      · intro hnone
        obtain ⟨hv, hfind⟩ := (findById_eq_ok_none _ _).mp hnone
        rw [find?_append_or] at hfind
        rcases hf1 : List.find? (fun q => q.id == pid) store with _ | r <;> rw [hf1] at hfind
        · exact (hinv pid).1 ((findById_eq_ok_none store pid).mpr ⟨hv, hf1⟩)
        · simp [Option.orElse] at hfind
      · intro p hp
        obtain ⟨hv, hfind⟩ := (findById_eq_ok_some _ _ _).mp hp
        rw [find?_append_or] at hfind
        rcases hf1 : List.find? (fun q => q.id == pid) store with _ | r <;> rw [hf1] at hfind
        · simp only [Option.orElse, Option.none_orElse] at hfind
          have hhist : hist pid = [] :=
            (hinv pid).1 ((findById_eq_ok_none store pid).mpr ⟨hv, hf1⟩)
          rw [find?_singleton] at hfind
          by_cases hq : (mkProduct newId now b).id == pid
          · rw [if_pos hq] at hfind
            have hpm : mkProduct newId now b = p := by simpa using hfind
            rw [hhist, ← hpm]
            exact ⟨by rw [mkProduct_ratingCount]; rfl,
              by rw [mkProduct_ratingCount]; simp,
              fun _ => mkProduct_rating_none newId now b hbr⟩
          · rw [if_neg hq] at hfind
            cases hfind
        · have hrp : r = p := by simpa [Option.orElse] using hfind
          subst hrp
          exact (hinv pid).2 r ((findById_eq_ok_some store pid r).mpr ⟨hv, hf1⟩)
  | update id b =>
    have hbr : b.rating = none := by simpa [opNoRatingBody] using hop
    intro pid
    simp only [opSubs, List.append_nil]
    rcases updateProduct_store store id b with hs | ⟨p, hfindp, hs⟩ <;>
      simp only [applyOp] <;> rw [hs]
    · exact hinv pid
    · obtain ⟨hvid, hfp⟩ := (findById_eq_ok_some store id p).mp hfindp
      have hp2id : (applyUpdate p b).id = p.id := applyUpdate_id p b
      constructor
      · intro hnone
        obtain ⟨hv, hfind⟩ := (findById_eq_ok_none _ _).mp hnone
        unfold saveById at hfind
        rw [find?_map_of_id_pres _ (saveFun_id (applyUpdate p b))] at hfind
        have hf1 := Option.map_eq_none.mp hfind
        exact (hinv pid).1 ((findById_eq_ok_none store pid).mpr ⟨hv, hf1⟩)
      · intro r hr
        obtain ⟨hv, hfind⟩ := (findById_eq_ok_some _ _ _).mp hr
        unfold saveById at hfind
        rw [find?_map_of_id_pres _ (saveFun_id (applyUpdate p b))] at hfind
        rcases hf1 : List.find? (fun q => q.id == pid) store with _ | r0 <;> rw [hf1] at hfind
        · cases hfind
        · have hr0 : (if r0.id == (applyUpdate p b).id then applyUpdate p b else r0) = r := by
            simpa using hfind
          have hr0mean := (hinv pid).2 r0 ((findById_eq_ok_some store pid r0).mpr ⟨hv, hf1⟩)
          by_cases hcase : (r0.id == (applyUpdate p b).id) = true
          · rw [if_pos hcase] at hr0
            have hr0pid : (r0.id == pid) = true := by
              have := List.find?_some hf1
              simpa using this
            have hppid : (p.id == id) = true := by
              have := List.find?_some hfp
              simpa using this
            have hpid_eq : pid = id := by
              have h1 : r0.id = pid := beq_iff_eq.mp hr0pid
              have h2 : r0.id = p.id := by rw [beq_iff_eq.mp hcase, hp2id]
              rw [← h1, h2]
              exact beq_iff_eq.mp hppid
            subst hpid_eq
            have hr0p : r0 = p := Option.some.inj (hf1.symm.trans hfp)
            subst hr0
            refine ratingMeanOf_congr r0 (applyUpdate p b) (hist pid) ?_ ?_ ?_
            · rw [applyUpdate_rating_of_none p b hbr, hr0p]
            · rw [applyUpdate_ratingCount p b, hr0p]
            · exact hr0mean
          · rw [if_neg hcase] at hr0
            subst hr0
            exact hr0mean
  | rate id v =>
    intro pid
    rcases updateProductRating_store store id v with ⟨hs, hacc⟩ | ⟨p, hfindp, hval, hs, hacc⟩
    · simp only [applyOp, opSubs]
      rw [hs, hacc]
      simpa using hinv pid
    · obtain ⟨hvid, hfp⟩ := (findById_eq_ok_some store id p).mp hfindp
      have hppid : (p.id == id) = true := by
        have := List.find?_some hfp
        simpa using this
      have hp2id : (ratingStep p v).id = p.id := ratingStep_id p v
      simp only [applyOp, opSubs, hacc, Bool.and_true]
      rw [hs]
      constructor
      · intro hnone
        obtain ⟨hv, hfind⟩ := (findById_eq_ok_none _ _).mp hnone
        unfold saveById at hfind
        rw [find?_map_of_id_pres _ (saveFun_id (ratingStep p v))] at hfind
        have hf1 := Option.map_eq_none.mp hfind
        have hne : (id == pid) = false := by
          rcases hbe : (id == pid) with _ | _
          · rfl
          · have : id = pid := beq_iff_eq.mp hbe
            subst this
            rw [hf1] at hfp
            cases hfp
        rw [hne]
        simpa using (hinv pid).1 ((findById_eq_ok_none store pid).mpr ⟨hv, hf1⟩)
      · intro r hr
        obtain ⟨hv, hfind⟩ := (findById_eq_ok_some _ _ _).mp hr
        unfold saveById at hfind
        rw [find?_map_of_id_pres _ (saveFun_id (ratingStep p v))] at hfind
        rcases hf1 : List.find? (fun q => q.id == pid) store with _ | r0 <;> rw [hf1] at hfind
        · cases hfind
        · have hr0 : (if r0.id == (ratingStep p v).id then ratingStep p v else r0) = r := by
            simpa using hfind
          have hr0mean := (hinv pid).2 r0 ((findById_eq_ok_some store pid r0).mpr ⟨hv, hf1⟩)
          have hr0pid : (r0.id == pid) = true := by
            have := List.find?_some hf1
            simpa using this
          by_cases hcase : (r0.id == (ratingStep p v).id) = true
          · rw [if_pos hcase] at hr0
            have hpid_eq : pid = id := by
              have h1 : r0.id = pid := beq_iff_eq.mp hr0pid
              have h2 : r0.id = p.id := by rw [beq_iff_eq.mp hcase, hp2id]
              rw [← h1, h2]
              exact beq_iff_eq.mp hppid
            subst hpid_eq
            have hr0p : r0 = p := Option.some.inj (hf1.symm.trans hfp)
            subst hr0
            rw [show (pid == pid) = true from beq_self_eq_true pid, if_pos rfl]
            exact ratingMeanOf_step p (hist pid) v (hr0p ▸ hr0mean)
          · rw [if_neg hcase] at hr0
            subst hr0
            have hne : (id == pid) = false := by
              rcases hbe : (id == pid) with _ | _
              · rfl
              · exfalso
                apply hcase
                have h1 : id = pid := beq_iff_eq.mp hbe
                have h2 : p.id = id := beq_iff_eq.mp hppid
                rw [beq_iff_eq, hp2id, h2, h1]
                exact beq_iff_eq.mp hr0pid
            rw [hne]
            simpa using hr0mean

/-- Helper: a sequence of rating-free-body operations preserves the
strengthened invariant, appending the accepted submissions. -/
theorem storeInv_applyOps (ops : List Op) (store : List Product) (hist : String → List ℚ)
    (hops : ∀ op ∈ ops, opNoRatingBody op = true) (hinv : storeInv store hist) :
    storeInv (applyOps store ops) (fun pid => hist pid ++ acceptedSubs store ops pid) := by
  induction ops generalizing store hist with
  | nil => simpa [applyOps, acceptedSubs] using hinv
  | cons op rest ih =>
    have h1 := storeInv_applyOp op store hist (hops op (by simp)) hinv
    have h2 := ih (applyOp store op) (fun pid => hist pid ++ opSubs store op pid)
      (fun o ho => hops o (by simp [ho])) h1
    simpa [applyOps, acceptedSubs, List.append_assoc] using h2

/-- C2 counterexample: after create (no rating in the body) and one
accepted submission of 3, an updateProduct call whose body carries
rating 5 changes the stored rating from 3 to 5 while ratingCount stays 1
and the only accepted submission remains 3 — an operation other than
rateProduct moved the rating away from the running mean. -/
theorem rating_changed_by_update_cex :
    Product.findById (applyOps [] [Op.create idA 0 bodyFull, Op.rate idA 3]) idA
      = .ok (some { mkProduct idA 0 bodyFull with rating := 3, ratingCount := 1 })
    ∧ Product.findById (applyOps [] opsBreak) idA
      = .ok (some { mkProduct idA 0 bodyFull with rating := 5, ratingCount := 1 })
    ∧ acceptedSubs [] opsBreak idA = [3]
    ∧ ((5 : ℚ) ≠ ([(3 : ℚ)].sum / (([(3 : ℚ)].length : Nat) : ℚ))) := by
  refine ⟨?_, ?_, ?_, by norm_num⟩
  · simp +decide [applyOps, applyOp, createProduct, updateProductRating, ratingInvalid,
      Product.findById, ratingStep, saveById, mkProduct, optFalsy, priceFalsy, bodyFull, idA]
  · simp +decide [applyOps, applyOp, opsBreak, createProduct, updateProduct, updateProductRating,
      ratingInvalid, Product.findById, ratingStep, saveById, applyUpdate, setName, setDescription,
      setPrice, setImage, setCategory, setStock, setBrand, setRating, mkProduct, optFalsy,
      priceFalsy, bodyFull, bodyRate5, idA]
  · simp +decide [acceptedSubs, opSubs, opsBreak, applyOp, isAccepted, createProduct,
      updateProduct, updateProductRating, ratingInvalid, Product.findById, ratingStep, saveById,
      applyUpdate, setName, setDescription, setPrice, setImage, setCategory, setStock, setBrand,
      setRating, mkProduct, optFalsy, priceFalsy, bodyFull, bodyRate5, idA]

/-- C2 amended: over any sequence of create, update and rateProduct
operations whose create/update bodies carry no rating field, every product
reachable in the final store has ratingCount equal to the number of its
accepted submissions and rating equal to their exact mean (0 when there are
none); with a rating field in a create or update body the relationship can
be broken, as the counterexample shows. -/
theorem rating_invariant_without_body_ratings (ops : List Op)
    (hops : ∀ op ∈ ops, opNoRatingBody op = true) (pid : String) (p : Product)
    (hfind : Product.findById (applyOps [] ops) pid = .ok (some p)) :
    p.ratingCount = (acceptedSubs [] ops pid).length
    ∧ (acceptedSubs [] ops pid = [] → p.rating = 0)
    ∧ (acceptedSubs [] ops pid ≠ [] →
        p.rating = (acceptedSubs [] ops pid).sum / (((acceptedSubs [] ops pid).length : Nat) : ℚ)) := by
  have hbase : storeInv [] (fun _ => []) := by
    intro pid'
    constructor
    · intro _
      rfl
    · intro q hq
      obtain ⟨_, hfq⟩ := (findById_eq_ok_some _ _ _).mp hq
      cases hfq
  have H := storeInv_applyOps ops [] (fun _ => []) hops hbase
  have hm := (H pid).2 p hfind
  simp only [List.nil_append] at hm
  obtain ⟨hc, hs, hz⟩ := hm
  refine ⟨hc, hz, fun hne => ?_⟩
  have hlen0 : (acceptedSubs [] ops pid).length ≠ 0 := by
    intro h0
    exact hne (List.eq_nil_of_length_eq_zero h0)
  have hlen : (((acceptedSubs [] ops pid).length : Nat) : ℚ) ≠ 0 := Nat.cast_ne_zero.mpr hlen0
  rw [eq_div_iff hlen]
  rw [hc] at hs
  exact hs

/-- Witness for the amended C2: create then submissions 4 and 2 leave the
stored rating 3, the mean of the two accepted submissions. -/
theorem rating_invariant_without_body_ratings_witness :
    ({ mkProduct idA 0 bodyFull with rating := 3, ratingCount := 2 } : Product).ratingCount
      = (acceptedSubs [] opsMean idA).length
    ∧ (acceptedSubs [] opsMean idA = []
        → ({ mkProduct idA 0 bodyFull with rating := 3, ratingCount := 2 } : Product).rating = 0)
    ∧ (acceptedSubs [] opsMean idA ≠ []
        → ({ mkProduct idA 0 bodyFull with rating := 3, ratingCount := 2 } : Product).rating
          = (acceptedSubs [] opsMean idA).sum / (((acceptedSubs [] opsMean idA).length : Nat) : ℚ)) :=
  rating_invariant_without_body_ratings opsMean (by decide) idA
    { mkProduct idA 0 bodyFull with rating := 3, ratingCount := 2 }
    (by simp +decide [applyOps, applyOp, opsMean, createProduct, updateProductRating,
        ratingInvalid, Product.findById, ratingStep, saveById, mkProduct, optFalsy, priceFalsy,
        bodyFull, idA]
        norm_num)

/-- Witness for the amended C6: the literal query shi is found in the name
of the returned product. -/
theorem search_noMeta_substring_witness :
    containsCI prodShirt.name "shi" = true ∨ containsCI prodShirt.description "shi" = true
      ∨ containsCI prodShirt.category "shi" = true :=
  search_noMeta_substring [prodShirt] "shi" [prodShirt] prodShirt (by decide) (by decide)
    (by simp +decide [searchProducts, searchMatches, fieldMatches, parsePattern, regexFind,
      matchHere, charMatches, optFalsy, sortByCreatedAtDesc, insertDesc, prodShirt, prodBase])
    (by decide)

end ECom
